import Mathlib

/-!
Verification development for the excel comparison tool
(`excel_tool/excel_comparator_india.py`, `excel_tool/utils.py`).

The Python functions are embedded shallowly:

* A raw spreadsheet cell is a `RawVal`: missing (`None` / `NaN`), a Python
  `int`, a Python `float`, or a `str`.  Python floats are modelled as exact
  rationals (`Rat`); every claim settled below is insensitive to double
  rounding because only truncation to integers and comparisons with slack
  of at least one whole unit are performed on float values.
* Python dictionaries are modelled as insertion-ordered association lists,
  matching `dict` iteration order.
* `pandas` dataframes are modelled as a list of column names plus rows of
  `RawVal`s aligned positionally with the columns.
* String manipulation is carried out on the underlying character lists so
  that every definition evaluates inside the kernel.
-/

namespace ExcelTool

/-- A raw cell value as seen by the comparator.  `null` covers both Python
`None` and pandas `NaN` (everything `pd.isna` accepts). -/
inductive RawVal where
  | null
  | intV (n : Int)
  | floatV (q : Rat)
  | strV (s : String)
deriving DecidableEq, Repr

/-- Digit character for a value `0 ≤ d ≤ 9`. -/
def digitChar (d : Nat) : Char := Char.ofNat (48 + d)

/-- Decimal digits of `n`, most significant first; the first argument is
fuel (any bound of at least the digit count, in particular `n` itself). -/
def natToCharsAux : Nat → Nat → List Char
  | 0, _ => []
  | fuel + 1, n =>
    if n = 0 then [] else natToCharsAux fuel (n / 10) ++ [digitChar (n % 10)]

/-- Python `str()` of a natural number. -/
def natToStr (n : Nat) : String :=
  if n = 0 then "0" else String.mk (natToCharsAux n n)

/-- Python `str()` of an int. -/
def intToStr (n : Int) : String :=
  if n < 0 then "-" ++ natToStr n.natAbs else natToStr n.natAbs

/-- Python `str()` of a float value, as used by `norm_text` / `acct_key`.
Modelled exactly for integral floats (`str(100.0) = "100.0"`), the only
float reprs any claim below evaluates; non-integral floats are rendered
from the exact rational. -/
def pyFloatRepr (q : Rat) : String :=
  if q.den = 1 then intToStr q.num ++ ".0" else intToStr q.num ++ "/" ++ natToStr q.den

/-- Python `str()` of a raw scalar. -/
def pyStr : RawVal → String
  | .null => "nan"
  | .intV n => intToStr n
  | .floatV q => pyFloatRepr q
  | .strV s => s

/-- Python `str.strip()` on the character list: drop whitespace from both
ends. -/
def trimChars (cs : List Char) : List Char :=
  ((cs.dropWhile Char.isWhitespace).reverse.dropWhile Char.isWhitespace).reverse

/-- Python `str.strip()`. -/
def pyStrip (s : String) : String := String.mk (trimChars s.data)

/-- Numeric value of a run of decimal digits, most significant first. -/
def digitsVal (cs : List Char) : Nat :=
  cs.foldl (fun a c => a * 10 + (c.toNat - 48)) 0

def allDigits (cs : List Char) : Bool :=
  cs.all (fun c => c.isDigit)

/-- Magnitude part of Python `float(s)` for strings over the character set
left by `coerce_numeric`'s final filter (digits, `.`, `-`): digits with at
most one `.` and at least one digit.  `d₁…dₖ.e₁…eₗ` denotes
`(d₁…dₖe₁…eₗ) / 10^l`, built with `mkRat` so that it evaluates by kernel
reduction. -/
def pyFloatMag (cs : List Char) : Option Rat :=
  let intPart := cs.takeWhile (fun c => c ≠ '.')
  match cs.dropWhile (fun c => c ≠ '.') with
  | [] =>
      if allDigits intPart && !intPart.isEmpty then
        some (mkRat (digitsVal intPart) 1)
      else none
  | '.' :: frac =>
      if allDigits intPart && allDigits frac && (!intPart.isEmpty || !frac.isEmpty) then
        some (mkRat (digitsVal (intPart ++ frac)) ((10 : Nat) ^ frac.length))
      else none
  | _ :: _ => none

/-- Python `float(s)` on the post-filter character set: an optional leading
`-`, then digits with at most one `.` and at least one digit overall. -/
def pyFloatChars (cs : List Char) : Option Rat :=
  match cs with
  | '-' :: rest => (pyFloatMag rest).map Rat.neg
  | _ => pyFloatMag cs

/-- The accounting-notation step of `coerce_numeric`: if the string starts
with `(` and ends with `)`, replace them by a leading minus
(`s = "-" + s[1:-1]`). -/
def stripParens (cs : List Char) : List Char :=
  match cs with
  | '(' :: rest => if rest.getLast? = some ')' then '-' :: rest.dropLast else cs
  | _ => cs

/-- `coerce_numeric(value)`: `None`/`NaN` give `None`; ints and floats pass
through as floats; strings are stripped, accounting parentheses become a
leading minus, commas are removed, every character other than digits, `.`
and `-` is removed, and the remainder is parsed as a float (`None` when
parsing fails). -/
def coerce_numeric (v : RawVal) : Option Rat :=
  match v with
  | .null => none
  | .intV n => some ((n : Int) : Rat)
  | .floatV q => some q
  | .strV raw =>
    let s := trimChars raw.data
    if s.isEmpty then none
    else
      let s := stripParens s
      let s := s.filter (fun c => c ≠ ',')
      let s := s.filter (fun c => c.isDigit || c = '.' || c = '-')
      pyFloatChars s

/-- Truncation toward zero, Python `int(float)` (`Int.tdiv` is T-division,
which rounds toward zero). -/
def ratTrunc (q : Rat) : Int :=
  q.num.tdiv (q.den : Int)

/-- `to_int_or_none(value)`: `coerce_numeric` then `int(...)` (truncation
toward zero); `None` propagates. -/
def to_int_or_none (v : RawVal) : Option Int :=
  (coerce_numeric v).map ratTrunc

/-- `norm_text(value)`: empty string for `None`/`NaN`, else `str(value).strip()`. -/
def norm_text (v : RawVal) : String :=
  match v with
  | .null => ""
  | _ => pyStrip (pyStr v)

/-- `values_equal(orig_val, web_val, tol=1)`: when both sides normalize to
integers, equality is `|web - orig| <= tol`; otherwise the stripped text
forms must coincide. -/
def values_equal (origVal webVal : RawVal) (tol : Int := 1) : Bool :=
  match to_int_or_none origVal, to_int_or_none webVal with
  | some oi, some wi => decide (|wi - oi| ≤ tol)
  | _, _ => decide (norm_text origVal = norm_text webVal)

/-- `values_different` is the negation of `values_equal`. -/
def values_different (origVal webVal : RawVal) (tol : Int := 1) : Bool :=
  !(values_equal origVal webVal tol)

/-- Python `str.lower()`, character by character (ASCII model). -/
def pyLower (s : String) : String := String.mk (s.data.map Char.toLower)

/-- A tagged part of a generic row key: `("num", int)` or `("str", text)`. -/
inductive KeyPart where
  | num (n : Int)
  | text (s : String)
deriving DecidableEq, Repr

/-- A generic row key: the ordered tuple built by `row_key`. -/
abbrev RKey := List KeyPart

/-- A dataframe row: its values in column order. -/
abbrev Row := List RawVal

/-- The loop of `row_key`: scan the row's columns in order, append a
`("num", int)` part when the value normalizes to an integer, else a
`("str", lowercased text)` part when the normalized text is non-empty, and
break as soon as `maxParts` parts are collected. -/
def rowKeyLoop (maxParts : Nat) : List RawVal → List KeyPart → List KeyPart
  | [], acc => acc
  | v :: rest, acc =>
    let acc' :=
      match to_int_or_none v with
      | some iv => acc ++ [KeyPart.num iv]
      | none =>
        let sv := norm_text v
        if sv = "" then acc else acc ++ [KeyPart.text (pyLower sv)]
    if maxParts ≤ acc'.length then acc' else rowKeyLoop maxParts rest acc'

/-- `row_key(row, max_parts=2)`. -/
def row_key (row : Row) (maxParts : Nat := 2) : RKey := rowKeyLoop maxParts row []

/-- `idx.setdefault(k, []).append(i)` on an insertion-ordered dict. -/
def addIndex (k : RKey) (i : Nat) : List (RKey × List Nat) → List (RKey × List Nat)
  | [] => [(k, [i])]
  | (k', is) :: rest =>
    if k' = k then (k', is ++ [i]) :: rest else (k', is) :: addIndex k i rest

def buildKeyIndexAux (maxParts : Nat) :
    List Row → Nat → List (RKey × List Nat) → List (RKey × List Nat)
  | [], _, acc => acc
  | r :: rest, i, acc => buildKeyIndexAux maxParts rest (i + 1) (addIndex (row_key r maxParts) i acc)

/-- `build_key_index(df, max_parts=2)`: key → list of row indices, in first
occurrence order. -/
def build_key_index (rows : List Row) (maxParts : Nat := 2) : List (RKey × List Nat) :=
  buildKeyIndexAux maxParts rows 0 []

/-- `idx.get(k, [])`. -/
def lookupIdx (idx : List (RKey × List Nat)) (k : RKey) : List Nat :=
  match idx.find? (fun e => decide (e.1 = k)) with
  | some e => e.2
  | none => []

/-- A JSON-normalized cell (`norm_for_json`): ints and floats pass through,
everything else becomes a string (missing values become `""`).  Booleans do
not occur among raw cell values in this model. -/
inductive JVal where
  | s (v : String)
  | i (n : Int)
  | f (q : Rat)
deriving DecidableEq, Repr

def norm_for_json : RawVal → JVal
  | .null => .s ""
  | .intV n => .i n
  | .floatV q => .f q
  | .strV s => .s s

/-- The per-sheet structured output: the four row buckets (whose first
element, when a comparison ran, is the header row the Python code seeds
them with) and the two accumulated counters.  `error` records the message
of a caught per-sheet exception. -/
structure TableResult where
  common_rows : List (List JVal)
  different_rows : List (List JVal)
  only_in_original_rows : List (List JVal)
  only_in_website_rows : List (List JVal)
  rows_compared : Nat
  cells_different : Nat
  error : Option String := none
deriving DecidableEq, Repr

/-- Header row of the column-major tripled mode. -/
def tripledHeaders (cols : List String) : List JVal :=
  cols.foldr (fun c acc =>
    .s (c ++ " (Original)") :: .s (c ++ " (Website)") :: .s (c ++ " (Diff)") :: acc) []

/-- Header row of the flat (generic) mode. -/
def simpleHeaders (cols : List String) : List JVal :=
  cols.map .s ++ [.s "Row Status"]

/-- Tripled row for an original-only row: `[o, "", "Only in Original"]` per column. -/
def onlyOrigTriple (row : Row) : List JVal :=
  row.foldr (fun v acc => norm_for_json v :: .s "" :: .s "Only in Original" :: acc) []

/-- Tripled row for a website-only row: `["", w, "Only in Website"]` per column. -/
def onlyWebTriple (row : Row) : List JVal :=
  row.foldr (fun v acc => .s "" :: norm_for_json v :: .s "Only in Website" :: acc) []

/-- Tripled row for an all-equal matched pair: `[val, val, ""]` per column,
with `val` the JSON-normalized original value. -/
def commonTriple (row : Row) : List JVal :=
  row.foldr (fun v acc => norm_for_json v :: norm_for_json v :: .s "" :: acc) []

/-- Per-column diff value of a differing pair: the numeric delta
`web - orig` when both sides are numeric-normalizable, else `"DIFF"`. -/
def diffCell (o w : RawVal) : JVal :=
  match coerce_numeric o, coerce_numeric w with
  | some oNum, some wNum => .f (wNum - oNum)
  | _, _ => .s "DIFF"

/-- Tripled row for a matched-but-unequal pair: `[o, w, diff]` per column,
the diff entry being empty for columns that are tolerant-equal. -/
def diffTriple (o w : Row) : List JVal :=
  (o.zip w).foldr (fun p acc =>
    norm_for_json p.1 :: norm_for_json p.2 ::
      (if values_different p.1 p.2 then diffCell p.1 p.2 else .s "") :: acc) []

/-- Number of columns on which the matched pair differs (`row_diffs_here`). -/
def diffCount (o w : Row) : Nat :=
  ((o.zip w).filter (fun p => values_different p.1 p.2)).length

/-- `all(values_equal(orig_row[col], web_row[col]) for col in common_cols)`. -/
def allSame (o w : Row) : Bool :=
  (o.zip w).all (fun p => values_equal p.1 p.2)

/-- Initial tripled-mode state: each bucket seeded with the header row. -/
def initTripled (cols : List String) : TableResult :=
  { common_rows := [tripledHeaders cols]
    different_rows := [tripledHeaders cols]
    only_in_original_rows := [tripledHeaders cols]
    only_in_website_rows := [tripledHeaders cols]
    rows_compared := 0
    cells_different := 0 }

/-- `match_indices = web_key_index.get(k, []); match_indices[0] if match_indices else None`:
the first candidate index for the row's key — claimed or not. -/
def firstCandidate (webIdx : List (RKey × List Nat)) (r : Row) : Option Nat :=
  (lookupIdx webIdx (row_key r 2)).head?

/-- First pass of the Gain Summary comparison: drive the original rows
against the key index of the website rows. -/
def gainPass1 (dfW : List Row) (webIdx : List (RKey × List Nat)) :
    List Row → TableResult → TableResult
  | [], st => st
  | orow :: rest, st =>
    match firstCandidate webIdx orow with
    | none =>
        gainPass1 dfW webIdx rest
          { st with
            only_in_original_rows := st.only_in_original_rows ++ [onlyOrigTriple orow]
            rows_compared := st.rows_compared + 1
            cells_different := st.cells_different + 1 }
    | some mi =>
        let wrow := dfW.getD mi []
        if allSame orow wrow then
          gainPass1 dfW webIdx rest
            { st with common_rows := st.common_rows ++ [commonTriple orow] }
        else
          gainPass1 dfW webIdx rest
            { st with
              different_rows := st.different_rows ++ [diffTriple orow wrow]
              rows_compared := st.rows_compared + 1
              cells_different := st.cells_different + diffCount orow wrow }

/-- Second pass of the Gain Summary comparison: website rows whose key never
occurs among the original rows are emitted as Only in Website. -/
def gainPass2 (origKeys : List RKey) : List Row → TableResult → TableResult
  | [], st => st
  | wrow :: rest, st =>
    if row_key wrow 2 ∈ origKeys then gainPass2 origKeys rest st
    else
      gainPass2 origKeys rest
        { st with
          only_in_website_rows := st.only_in_website_rows ++ [onlyWebTriple wrow]
          rows_compared := st.rows_compared + 1
          cells_different := st.cells_different + 1 }

/-- The `Gain Summary` branch of the comparison (indexed multi-match over
the generic `row_key`). -/
def gainCompare (cols : List String) (dfO dfW : List Row) : TableResult :=
  gainPass2 (dfO.map (fun r => row_key r 2)) dfW
    (gainPass1 dfW (build_key_index dfW 2) dfO (initTripled cols))

/-- Flat row plus status label, the row shape of the generic branch. -/
def simpleRowVals (row : Row) (status : String) : List JVal :=
  row.map norm_for_json ++ [.s status]

/-- Initial generic-mode state: each bucket seeded with the header row. -/
def initSimple (cols : List String) : TableResult :=
  { common_rows := [simpleHeaders cols]
    different_rows := [simpleHeaders cols]
    only_in_original_rows := [simpleHeaders cols]
    only_in_website_rows := [simpleHeaders cols]
    rows_compared := 0
    cells_different := 0 }

/-- First pass of the generic comparison. -/
def simplePass1 (dfW : List Row) (webIdx : List (RKey × List Nat)) :
    List Row → TableResult → TableResult
  | [], st => st
  | orow :: rest, st =>
    match firstCandidate webIdx orow with
    | none =>
        simplePass1 dfW webIdx rest
          { st with
            only_in_original_rows :=
              st.only_in_original_rows ++ [simpleRowVals orow "Only in Original"]
            rows_compared := st.rows_compared + 1
            cells_different := st.cells_different + 1 }
    | some mi =>
        let wrow := dfW.getD mi []
        if allSame orow wrow then
          simplePass1 dfW webIdx rest
            { st with common_rows := st.common_rows ++ [simpleRowVals orow "Common"] }
        else
          simplePass1 dfW webIdx rest
            { st with
              different_rows := st.different_rows ++ [simpleRowVals orow "Different"]
              rows_compared := st.rows_compared + 1
              cells_different := st.cells_different + diffCount orow wrow }

/-- Second pass of the generic comparison. -/
def simplePass2 (origKeys : List RKey) : List Row → TableResult → TableResult
  | [], st => st
  | wrow :: rest, st =>
    if row_key wrow 2 ∈ origKeys then simplePass2 origKeys rest st
    else
      simplePass2 origKeys rest
        { st with
          only_in_website_rows :=
            st.only_in_website_rows ++ [simpleRowVals wrow "Only in Website"]
          rows_compared := st.rows_compared + 1
          cells_different := st.cells_different + 1 }

/-- The generic comparison branch (`# General compare logic`). -/
def simpleCompare (cols : List String) (dfO dfW : List Row) : TableResult :=
  simplePass2 (dfO.map (fun r => row_key r 2)) dfW
    (simplePass1 dfW (build_key_index dfW 2) dfO (initSimple cols))

/-- `acct_key(v)`: `None` for missing/blank values; otherwise the stripped
text, preferring the normalized integer form when the text parses to an
integer, else lowercased. -/
def acct_key (v : RawVal) : Option String :=
  match v with
  | .null => none
  | _ =>
    let s := pyStrip (pyStr v)
    if s = "" then none
    else
      match to_int_or_none (.strV s) with
      | some n => some (intToStr n)
      | none => some (pyLower s)

/-- Split a character list into fields at separator characters. -/
def splitFields (sep : Char → Bool) : List Char → List (List Char)
  | [] => [[]]
  | c :: rest =>
    let r := splitFields sep rest
    if sep c then [] :: r
    else
      match r with
      | [] => [[c]]
      | f :: fs => (c :: f) :: fs

/-- Two-digit zero-padded decimal rendering. -/
def padTwo (n : Nat) : String := if n < 10 then "0" ++ natToStr n else natToStr n

/-- ISO date string from numeric fields, after bounds checks mirroring what
a date parser accepts. -/
def isoOfFields (y m d : Nat) : Option String :=
  if 1 ≤ m ∧ m ≤ 12 ∧ 1 ≤ d ∧ d ≤ 31 then
    some (natToStr y ++ "-" ++ padTwo m ++ "-" ++ padTwo d)
  else none

/-- Models `pandas.to_datetime(v, errors="coerce", dayfirst=True)` followed
by `.date().isoformat()`, on the value forms this development exercises:
strings `D/M/YYYY`, `D-M-YYYY` (day first) and ISO `YYYY-M-D` parse to an
ISO calendar date; raw numbers are nanosecond epoch offsets, which for the
magnitudes handled here all fall on 1970-01-01; anything else fails,
yielding the lowercased-text fallback of the key builder. -/
def parseDayfirstISO (v : RawVal) : Option String :=
  match v with
  | .null => none
  | .intV _ => some "1970-01-01"
  | .floatV _ => some "1970-01-01"
  | .strV s =>
    match splitFields (fun c => c = '/' || c = '-') (trimChars s.data) with
    | [a, b, c] =>
      if allDigits a && allDigits b && allDigits c
          && !a.isEmpty && !b.isEmpty && !c.isEmpty then
        if a.length = 4 then isoOfFields (digitsVal a) (digitsVal b) (digitsVal c)
        else if c.length = 4 then isoOfFields (digitsVal c) (digitsVal b) (digitsVal a)
        else none
      else none
    | _ => none

/-- Whether `needle` occurs at the start of `hay`. -/
def startsWithChars : List Char → List Char → Bool
  | [], _ => true
  | _ :: _, [] => false
  | n :: ns, h :: hs => n = h && startsWithChars ns hs

/-- Python's `"needle" in hay` substring test. -/
def hasSub (needle : List Char) : List Char → Bool
  | [] => needle.isEmpty
  | c :: rest => startsWithChars needle (c :: rest) || hasSub needle rest

/-- One normalized part of the composite key, for a present, non-blank
value `v` whose stripped text is `s`: identifier columns prefer the
integer-normalized form, date-named columns the ISO date, everything else
the lowercased text. -/
def compositePart (col : String) (v : RawVal) (s : String) : String :=
  if pyLower col = "account number" then
    match to_int_or_none v with
    | some n => intToStr n
    | none => pyLower s
  else if hasSub "date".data (pyLower col).data then
    match parseDayfirstISO v with
    | some iso => iso
    | none => pyLower s
  else pyLower s

/-- The part-collecting loop of `composite_acct_key` over
`(column name, looked-up value)` pairs: `None` as soon as a required column
is missing (`none`), `NaN`/`None`, or blank. -/
def composite_from : List (String × Option RawVal) → Option (List String)
  | [] => some []
  | (_, none) :: _ => none
  | (col, some v) :: rest =>
    if v = .null then none
    else
      let s := pyStrip (pyStr v)
      if s = "" then none
      else (composite_from rest).map (fun parts => compositePart col v s :: parts)

/-- `"|".join(parts)`. -/
def joinBar : List String → String
  | [] => ""
  | [p] => p
  | p :: rest => p ++ "|" ++ joinBar rest

/-- `row[col]` on the positional row model: the value under column `c`,
`none` when `c` is not among the columns. -/
def lookupCol (cols : List String) (row : Row) (c : String) : Option RawVal :=
  match cols, row with
  | [], _ => none
  | _, [] => none
  | c' :: cs, v :: vs => if c' = c then some v else lookupCol cs vs c

/-- `composite_acct_key(row, key_cols)`: normalize and join the values of
the key columns; `None` if any required part is missing or blank. -/
def composite_acct_key (cols keyCols : List String) (row : Row) : Option String :=
  (composite_from (keyCols.map (fun c => (c, lookupCol cols row c)))).map joinBar

/-- The key function the map-match branch selects: `acct_key` of the
`Account Number` cell when that is the single key column (the code
guarantees the column is present there), else `composite_acct_key`. -/
def rowAcctKey (cols keyCols : List String) (row : Row) : Option String :=
  if keyCols = ["Account Number"] then
    acct_key ((lookupCol cols row "Account Number").getD .null)
  else composite_acct_key cols keyCols row

/-- The raw tuple of a row's key-column values, the subset on which
`drop_duplicates(subset=key_cols)` compares rows. -/
def keyTuple (cols keyCols : List String) (row : Row) : List (Option RawVal) :=
  keyCols.map (lookupCol cols row)

/-- `df.drop_duplicates(subset=key_cols, keep="first")`: keep each row whose
raw key-column tuple has not occurred before. -/
def dedupRawAux (tupleOf : Row → List (Option RawVal)) :
    List Row → List (List (Option RawVal)) → List Row
  | [], _ => []
  | r :: rest, seen =>
    if tupleOf r ∈ seen then dedupRawAux tupleOf rest seen
    else r :: dedupRawAux tupleOf rest (tupleOf r :: seen)

/-- The map-building loop `if k is not None and k not in map: map[k] = row`
(the row standing for the retained index). -/
def buildAcctMap (keyOf : Row → Option String) :
    List Row → List (String × Row) → List (String × Row)
  | [], m => m
  | r :: rest, m =>
    match keyOf r with
    | none => buildAcctMap keyOf rest m
    | some k =>
      if k ∈ m.map Prod.fst then buildAcctMap keyOf rest m
      else buildAcctMap keyOf rest (m ++ [(k, r)])

/-- First pass of the map-match branch: iterate the keys of the original
map in insertion order. -/
def mapPass1 (webMap : List (String × Row)) :
    List (String × Row) → TableResult → TableResult
  | [], st => st
  | (k, orow) :: rest, st =>
    match webMap.find? (fun e => decide (e.1 = k)) with
    | none =>
        mapPass1 webMap rest
          { st with
            only_in_original_rows := st.only_in_original_rows ++ [onlyOrigTriple orow]
            rows_compared := st.rows_compared + 1
            cells_different := st.cells_different + 1 }
    | some e =>
        let wrow := e.2
        if allSame orow wrow then
          mapPass1 webMap rest
            { st with common_rows := st.common_rows ++ [commonTriple orow] }
        else
          mapPass1 webMap rest
            { st with
              different_rows := st.different_rows ++ [diffTriple orow wrow]
              rows_compared := st.rows_compared + 1
              cells_different := st.cells_different + diffCount orow wrow }

/-- Second pass of the map-match branch: website keys absent from the
original map are Only in Website. -/
def mapPass2 (origMap : List (String × Row)) :
    List (String × Row) → TableResult → TableResult
  | [], st => st
  | (k, wrow) :: rest, st =>
    if k ∈ origMap.map Prod.fst then mapPass2 origMap rest st
    else
      mapPass2 origMap rest
        { st with
          only_in_website_rows := st.only_in_website_rows ++ [onlyWebTriple wrow]
          rows_compared := st.rows_compared + 1
          cells_different := st.cells_different + 1 }

/-- The map-match comparison given the two key → row maps. -/
def mapCompareCore (cols : List String) (origMap webMap : List (String × Row)) : TableResult :=
  mapPass2 origMap webMap (mapPass1 webMap origMap (initTripled cols))

/-- The full map-match branch: deduplicate both dataframes on the raw key
columns, build the key → row maps, then compare. -/
def mapCompare (cols keyCols : List String) (dfO dfW : List Row) : TableResult :=
  mapCompareCore cols
    (buildAcctMap (rowAcctKey cols keyCols) (dedupRawAux (keyTuple cols keyCols) dfO []) [])
    (buildAcctMap (rowAcctKey cols keyCols) (dedupRawAux (keyTuple cols keyCols) dfW []) [])

/-- A dataframe: column names plus rows of values in column order. -/
structure DF where
  cols : List String
  rows : List Row
deriving DecidableEq, Repr

/-- Sheets for which the `Sl. No.` column is excluded from the comparison. -/
def slNoSheets : List String :=
  ["ScheduleFA", "transaction_details", "transaction_details_by_gain"]

/-- Sheets eligible for the tripled account-keyed branch. -/
def specialSheets : List String :=
  ["Gain Summary", "ScheduleFA", "transaction_details", "transaction_details_by_gain"]

/-- The preferred composite key columns of the transaction detail sheets. -/
def preferredKeys : List String :=
  ["Account Number", "Investment Name", "Purchase Date"]

/-- `df[common_cols]`: project a row onto the common columns, in their
order (every common column is present, so the default is never used). -/
def projectRow (cols common : List String) (row : Row) : Row :=
  common.map (fun c => (lookupCol cols row c).getD .null)

/-- The per-sheet result when no common columns exist: zero counts, empty
buckets, no error. -/
def emptyResult : TableResult := ⟨[], [], [], [], 0, 0, none⟩

/-- The body of the per-sheet comparison: select common columns (dropping
`Sl. No.` on the configured sheets), short-circuit to the empty result when
none remain, then dispatch to the tripled account-keyed branch (Gain
Summary's indexed multi-match or the deduplicated map-match) or to the
generic branch. -/
def compareSheet (sheet : String) (dfO dfW : DF) : TableResult :=
  let common0 := dfO.cols.filter (fun c => dfW.cols.contains c)
  let commonCols :=
    if sheet ∈ slNoSheets then common0.filter (fun c => c ≠ "Sl. No.") else common0
  if commonCols.isEmpty then emptyResult
  else
    let rowsO := dfO.rows.map (projectRow dfO.cols commonCols)
    let rowsW := dfW.rows.map (projectRow dfW.cols commonCols)
    if sheet ∈ specialSheets ∧ "Account Number" ∈ commonCols then
      let keyCols :=
        if preferredKeys.all (fun k => decide (k ∈ commonCols)) then preferredKeys
        else ["Account Number"]
      let rowsO' := dedupRawAux (keyTuple commonCols keyCols) rowsO []
      let rowsW' := dedupRawAux (keyTuple commonCols keyCols) rowsW []
      if sheet = "Gain Summary" then gainCompare commonCols rowsO' rowsW'
      else
        mapCompareCore commonCols
          (buildAcctMap (rowAcctKey commonCols keyCols) rowsO' [])
          (buildAcctMap (rowAcctKey commonCols keyCols) rowsW' [])
    else simpleCompare commonCols rowsO rowsW

/-- Per-sheet parsing configuration (`header_row`, `data_start_row`). -/
structure SheetCfg where
  header_row : Nat
  data_start_row : Nat
deriving DecidableEq, Repr

/-- A workbook: its sheets by name.  The header-row configuration governs
how worksheet cells become a dataframe; the model holds the resulting
dataframes directly. -/
abbrev Workbook := List (String × DF)

/-- `pd.read_excel(bytes, sheet_name=name, ...)`: the sheet's dataframe, or
a raised error when the workbook has no sheet of that name. -/
def readSheet (wb : Workbook) (name : String) : Except String DF :=
  match wb.find? (fun e => decide (e.1 = name)) with
  | some e => .ok e.2
  | none => .error ("Worksheet named " ++ name ++ " not found")

/-- The body of the per-sheet `try`: read both sheets (either read may
raise) and compare them. -/
def processSheet (origWb webWb : Workbook) (name : String) : Except String TableResult := do
  let dfO ← readSheet origWb name
  let dfW ← readSheet webWb name
  pure (compareSheet name dfO dfW)

/-- The `except` handler's per-sheet entry: empty buckets, zero counts and
the error message. -/
def errorResult (e : String) : TableResult := ⟨[], [], [], [], 0, 0, some e⟩

/-- A cell of the summary table: sheet names and error markers are strings,
counts are numbers. -/
inductive SummaryCell where
  | s (v : String)
  | n (v : Nat)
deriving DecidableEq, Repr

def summaryHeader : List SummaryCell :=
  [.s "Sheet", .s "Rows Compared", .s "Cells Different", .s "Common Rows",
    .s "Only in Original", .s "Only in Website"]

/-- The summary row appended for a sheet: counts on success (bucket counts
are the raw list lengths, header rows included), an error marker with zero
counts on failure. -/
def summaryFor (name : String) (r : TableResult) : List SummaryCell :=
  match r.error with
  | some e => [.s name, .n 0, .s ("ERROR: " ++ e), .n 0, .n 0, .n 0]
  | none =>
    [.s name, .n r.rows_compared, .n r.cells_different, .n r.common_rows.length,
      .n r.only_in_original_rows.length, .n r.only_in_website_rows.length]

/-- One sheet of the orchestrator loop: the `try` body's result, or the
`except` handler's error entry — never a propagated exception. -/
def sheetEntry (origWb webWb : Workbook) (name : String) : TableResult :=
  match processSheet origWb webWb name with
  | .ok r => r
  | .error e => errorResult e

/-- The structured result of a comparator entry point (the generated
workbook bytes are presentation and are not modelled). -/
structure CompareOutput where
  summary_rows : List (List SummaryCell)
  sheets : List (String × TableResult)
deriving DecidableEq, Repr

/-- `compare_excel_with_gain_summary_inline_India`: run every configured
sheet through the guarded per-sheet comparison and assemble the summary
table and the per-sheet structured results. -/
def compare_excel_with_gain_summary_inline_India
    (origWb webWb : Workbook) (config : List (String × SheetCfg)) : CompareOutput :=
  { summary_rows := summaryHeader ::
      config.map (fun e => summaryFor e.1 (sheetEntry origWb webWb e.1))
    sheets := config.map (fun e => (e.1, sheetEntry origWb webWb e.1)) }

/-- The default India sheet configuration. -/
def indiaSheetsConfig : List (String × SheetCfg) :=
  [("Gain Summary", ⟨2, 3⟩), ("ScheduleFA", ⟨8, 8⟩), ("transaction_details", ⟨2, 3⟩),
    ("transaction_details_by_gain", ⟨2, 3⟩)]

/-- The default USA sheet configuration of `utils.py`. -/
def usaSheetsConfig : List (String × SheetCfg) :=
  [("Gain Summary", ⟨2, 3⟩), ("8938", ⟨6, 7⟩), ("FBAR", ⟨2, 3⟩)]

/-- `utils.compare_excel_with_gain_summary_inline`: the USA-side entry
point in `utils.py`.  The function body loads both workbooks, initializes
the summary header row and an empty `sheets_structured` mapping, saves an
empty output workbook and returns immediately: no configured sheet is ever
processed, so the returned `sheets` mapping is empty whatever the inputs
and the configuration are. -/
def compare_excel_with_gain_summary_inline
    (_origWb _webWb : Workbook) (_config : List (String × SheetCfg)) : CompareOutput :=
  { summary_rows := [summaryHeader], sheets := [] }

/-- The row-pairing policy as the specification words it: each original row
takes the first candidate index for its key among the website rows that has
not already been claimed by an earlier original row.  Stated from the spec,
for comparison with the implemented `firstCandidate` policy. -/
def claimedMatchesAux (webIdx : List (RKey × List Nat)) :
    List Row → List Nat → List (Option Nat)
  | [], _ => []
  | r :: rest, claimed =>
    match (lookupIdx webIdx (row_key r 2)).filter (fun i => decide (i ∉ claimed)) with
    | [] => none :: claimedMatchesAux webIdx rest claimed
    | i :: _ => some i :: claimedMatchesAux webIdx rest (i :: claimed)

/-- See `claimedMatchesAux`. -/
def claimedMatches (dfO dfW : List Row) : List (Option Nat) :=
  claimedMatchesAux (build_key_index dfW 2) dfO []

/-- Deduplication as the specification words it: keep the first occurrence
per key, dropping every later row whose key already occurred; rows without
a key are untouched. -/
def dedupFirstByKeyAux (keyOf : Row → Option String) : List Row → List String → List Row
  | [], _ => []
  | r :: rest, seen =>
    match keyOf r with
    | none => r :: dedupFirstByKeyAux keyOf rest seen
    | some k =>
      if k ∈ seen then dedupFirstByKeyAux keyOf rest seen
      else r :: dedupFirstByKeyAux keyOf rest (k :: seen)

/-- See `dedupFirstByKeyAux`. -/
def dedupFirstByKey (keyOf : Row → Option String) (rows : List Row) : List Row :=
  dedupFirstByKeyAux keyOf rows []

/-- The positions (counting from `i`) of the rows whose generic key is `k`. -/
def keyIdxFrom (k : RKey) : List Row → Nat → List Nat
  | [], _ => []
  | r :: rest, i =>
    if row_key r 2 = k then i :: keyIdxFrom k rest (i + 1) else keyIdxFrom k rest (i + 1)

/-- The map-match key as a function of the raw key-column tuple alone
(`rowAcctKey` factors through `keyTuple`; see `rowAcctKey_eq_tuple`). -/
def tupleAcctKey (keyCols : List String) (t : List (Option RawVal)) : Option String :=
  if keyCols = ["Account Number"] then acct_key ((t.headD none).getD .null)
  else (composite_from (keyCols.zip t)).map joinBar

/-- Original-side dataframe of the C2 scenario: one row `{ID:100, Amount:"1,000"}`. -/
def c2Orig : DF := ⟨["ID", "Amount"], [[.intV 100, .strV "1,000"]]⟩

/-- Website-side dataframe of the C2 scenario: one row `{ID:100, Amount:"999"}`. -/
def c2Web : DF := ⟨["ID", "Amount"], [[.intV 100, .strV "999"]]⟩

/-- Original-side dataframe of the C3 scenario: its single row has a blank
`Account Number`, so no composite key can be built for it. -/
def c3Orig : DF := ⟨preferredKeys, [[.null, .strV "Fund A", .strV "01/02/2024"]]⟩

/-- Website-side dataframe of the C3 scenario: empty. -/
def c3Web : DF := ⟨preferredKeys, []⟩

def c4cols : List String := ["Account Number", "Qty", "Amount"]

/-- The C4 scenario rows: the two rows share the generic key
`[("num",1), ("num",5)]` (the accounts `"1"` and `"1.0"` both normalize to
the integer 1) but differ in the third column, and the website dataset is
identical to the original one. -/
def c4Rows : List Row := [[.strV "1", .intV 5, .intV 100], [.strV "1.0", .intV 5, .intV 200]]

/-- Dataframes of the C6 witness: a workbook holding only an (empty)
`Gain Summary` sheet. -/
def c6Wb : Workbook := [("Gain Summary", ⟨["ID"], []⟩)]

/-- Configuration of the C6 witness: it also configures a `ScheduleFA`
sheet, which `c6Wb` does not contain, so reading that sheet fails. -/
def c6Config : List (String × SheetCfg) := [("Gain Summary", ⟨2, 3⟩), ("ScheduleFA", ⟨8, 8⟩)]

/-- Dataframes of the C8 witness: the two sheets share no column name. -/
def c8Orig : DF := ⟨["A", "B"], [[.intV 1, .intV 2]]⟩

def c8Web : DF := ⟨["C"], [[.intV 3]]⟩

/-- Workbook of the C9 failing input: both documents carry a well-formed
`Gain Summary` sheet. -/
def c9Wb : Workbook := [("Gain Summary", ⟨["ID"], [[.intV 1]]⟩)]

theorem to_int_intV (n : Int) : to_int_or_none (.intV n) = some n := by
  simp [to_int_or_none, coerce_numeric, ratTrunc, Rat.num_intCast, Rat.den_intCast,
    Int.tdiv_one]

theorem to_int_floatV (q : Rat) : to_int_or_none (.floatV q) = some (ratTrunc q) := rfl

/-- **C1** (counterexample). `values_equal` on the float pair `(1.4, 2.6)`
with tolerance `1` answers `true`, although `|1.4 - 2.6| = 1.2 > 1`: the
comparison is made on the values truncated to integers, not on the numeric
values themselves. -/
theorem claim_C1_counterexample :
    values_equal (.floatV (mkRat 7 5)) (.floatV (mkRat 13 5)) 1 = true ∧
    ¬ (|mkRat 7 5 - mkRat 13 5| ≤ (1 : Rat)) := by
  refine ⟨by decide, ?_⟩
  have h7 : mkRat 7 5 = (7 : Rat) / 5 := by rw [Rat.mkRat_eq_div]; norm_num
  have h13 : mkRat 13 5 = (13 : Rat) / 5 := by rw [Rat.mkRat_eq_div]; norm_num
  rw [h7, h13, abs_le]
  intro h
  have := h.1
  norm_num at this

/-- **C1** (amended).  Whenever both raw values — of any shape: ints,
floats, numeric strings, or mixed pairs of these — normalize to integers
`i` (orig) and `j` (web), `values_equal(a, b, tol)` is `|j - i| ≤ tol`;
for two Python ints this coincides with `|a - b| ≤ tol` (but not for
fractional numerics, whose truncations are compared); and whenever either
side fails to normalize to an integer it is equality of the stripped text
forms. -/
theorem claim_C1 :
    (∀ (a b : RawVal) (tol i j : Int),
      to_int_or_none a = some i → to_int_or_none b = some j →
      values_equal a b tol = decide (|j - i| ≤ tol)) ∧
    (∀ n m tol : Int, values_equal (.intV n) (.intV m) tol = decide (|m - n| ≤ tol)) ∧
    (∀ (a b : RawVal) (tol : Int),
      to_int_or_none a = none ∨ to_int_or_none b = none →
      values_equal a b tol = decide (norm_text a = norm_text b)) := by
  refine ⟨?_, ?_, ?_⟩
  · intro a b tol i j ha hb
    unfold values_equal
    rw [ha, hb]
  · intro n m tol
    simp [values_equal, to_int_intV]
  · intro a b tol h
    unfold values_equal
    cases ha : to_int_or_none a <;> cases hb : to_int_or_none b <;> simp
    rcases h with h | h
    · rw [ha] at h; cases h
    · rw [hb] at h; cases h

/-- Witness for the hypotheses of `claim_C1`: the mixed-type pair
`("1,000", 999)` normalizes to the integers 1000 and 999 and is compared
numerically, while the text pair `("x", "y")` does not normalize to
integers and falls through to text comparison. -/
theorem claim_C1_witness :
    (to_int_or_none (.strV "1,000") = some 1000 ∧
      to_int_or_none (.intV 999) = some 999 ∧
      values_equal (.strV "1,000") (.intV 999) 1 = decide (|(999 : Int) - 1000| ≤ 1)) ∧
    (to_int_or_none (.strV "x") = none ∨ to_int_or_none (.strV "y") = none) ∧
    values_equal (.strV "x") (.strV "y") 1
      = decide (norm_text (.strV "x") = norm_text (.strV "y")) :=
  ⟨⟨by decide, by decide,
      claim_C1.1 (.strV "1,000") (.intV 999) 1 1000 999 (by decide) (by decide)⟩,
    Or.inl (by decide), claim_C1.2.2 (.strV "x") (.strV "y") 1 (Or.inl (by decide))⟩

/-- **C7** (confirmed).  `coerce_numeric` maps `"(1,234)"` to `-1234.0`,
the empty string to `None`, `"abc"` to `None`, and every missing/blank/null
raw input to `None`; it is a total function, so no exception is raised. -/
theorem claim_C7 :
    coerce_numeric (.strV "(1,234)") = some (mkRat (-1234) 1) ∧
    (mkRat (-1234) 1 : Rat) = ((-1234 : Int) : Rat) ∧
    coerce_numeric (.strV "") = none ∧
    coerce_numeric (.strV "abc") = none ∧
    coerce_numeric .null = none ∧
    (∀ s : String, pyStrip s = "" → coerce_numeric (.strV s) = none) := by
  refine ⟨by decide, by rw [Rat.mkRat_one], by decide, by decide, rfl, ?_⟩
  intro s h
  have htrim : (trimChars s.data).isEmpty = true := by
    have : (pyStrip s).data = ("" : String).data := by rw [h]
    simpa [pyStrip, List.isEmpty_iff] using this
  simp [coerce_numeric, htrim]

/-- Witness for the hypothesis of `claim_C7`: the all-whitespace string
`"  "` strips to the empty string and coerces to `None`. -/
theorem claim_C7_witness :
    pyStrip "  " = "" ∧ coerce_numeric (.strV "  ") = none :=
  ⟨by decide, claim_C7.2.2.2.2.2 "  " (by decide)⟩

/-- **C10** (confirmed).  `values_equal` and `values_different` are
symmetric in their two value arguments, for every tolerance. -/
theorem claim_C10 :
    ∀ (a b : RawVal) (tol : Int),
      values_equal a b tol = values_equal b a tol ∧
      values_different a b tol = values_different b a tol := by
  intro a b tol
  have h : values_equal a b tol = values_equal b a tol := by
    unfold values_equal
    cases ha : to_int_or_none a <;> cases hb : to_int_or_none b <;>
      simp [eq_comm, abs_sub_comm]
  exact ⟨h, by simp [values_different, h]⟩

/-- **C2** (counterexample).  On the original row `{ID:100, Amount:"1,000"}`
against the website row `{ID:100, Amount:"999"}`, the comparison produces
no `Different` row at all (the `different_rows` bucket holds only its
header) and the cells-different count is 2, not 1. -/
theorem claim_C2_counterexample :
    (compareSheet "Gain Summary" c2Orig c2Web).different_rows
        = [simpleHeaders ["ID", "Amount"]] ∧
    (compareSheet "Gain Summary" c2Orig c2Web).cells_different ≠ 1 := by
  constructor
  · decide
  · decide

/-- **C2** (amended).  The two rows' generic keys differ — the two-part key
includes the `Amount` column, and `"1,000"` and `"999"` normalize to the
distinct integers 1000 and 999 — so the rows are never matched: the
original row is emitted as Only in Original and the website row as Only in
Website, with 2 rows compared and 2 cells different.  (Even under a
single-column `ID` match the pair would be classified `Common`, not
`Different`, because `values_equal("1,000", "999")` holds at tolerance 1.) -/
theorem claim_C2 :
    compareSheet "Gain Summary" c2Orig c2Web =
      { common_rows := [simpleHeaders ["ID", "Amount"]]
        different_rows := [simpleHeaders ["ID", "Amount"]]
        only_in_original_rows :=
          [simpleHeaders ["ID", "Amount"], [.i 100, .s "1,000", .s "Only in Original"]]
        only_in_website_rows :=
          [simpleHeaders ["ID", "Amount"], [.i 100, .s "999", .s "Only in Website"]]
        rows_compared := 2
        cells_different := 2
        error := none } ∧
    row_key [.intV 100, .strV "1,000"] 2 ≠ row_key [.intV 100, .strV "999"] 2 ∧
    values_equal (.strV "1,000") (.strV "999") 1 = true := by
  refine ⟨by decide, by decide, by decide⟩

/-- **C8** (confirmed).  When the two sheets share no column, the sheet's
result has empty buckets, zero counts and no error, and its summary row
shows all-zero counts. -/
theorem claim_C8 :
    ∀ (sheet : String) (dfO dfW : DF),
      dfO.cols.filter (fun c => dfW.cols.contains c) = [] →
      compareSheet sheet dfO dfW = emptyResult ∧
      summaryFor sheet (compareSheet sheet dfO dfW)
        = [.s sheet, .n 0, .n 0, .n 0, .n 0, .n 0] := by
  intro sheet dfO dfW h
  have hres : compareSheet sheet dfO dfW = emptyResult := by
    unfold compareSheet
    rw [h]
    by_cases hs : sheet ∈ slNoSheets <;> simp [hs]
  exact ⟨hres, by rw [hres]; rfl⟩

/-- Witness for the hypotheses of `claim_C8`: sheets with columns
`["A","B"]` and `["C"]` share no column. -/
theorem claim_C8_witness :
    c8Orig.cols.filter (fun c => c8Web.cols.contains c) = [] ∧
    compareSheet "S" c8Orig c8Web = emptyResult :=
  ⟨by decide, (claim_C8 "S" c8Orig c8Web (by decide)).1⟩

/-- **C6** (confirmed).  The orchestrator returns an entry for every
configured sheet, in configuration order, and each entry is either the
comparison result of that sheet or — when reading the sheet raised — the
caught-error record with empty buckets, zero counts and the error marker;
the orchestrator itself is a total function, so no exception propagates
out of it. -/
theorem claim_C6 :
    ∀ (origWb webWb : Workbook) (config : List (String × SheetCfg)),
      (compare_excel_with_gain_summary_inline_India origWb webWb config).sheets.map Prod.fst
        = config.map Prod.fst ∧
      (∀ name r,
        (name, r) ∈ (compare_excel_with_gain_summary_inline_India origWb webWb config).sheets →
        (∀ e, processSheet origWb webWb name = .error e →
          r = { common_rows := [], different_rows := [], only_in_original_rows := []
                only_in_website_rows := [], rows_compared := 0, cells_different := 0
                error := some e }) ∧
        (∀ t, processSheet origWb webWb name = .ok t → r = t)) := by
  intro origWb webWb config
  constructor
  · simp [compare_excel_with_gain_summary_inline_India]
  · intro name r hmem
    simp only [compare_excel_with_gain_summary_inline_India, List.mem_map] at hmem
    obtain ⟨e, _, he⟩ := hmem
    obtain ⟨h1, h2⟩ := Prod.mk.injEq .. ▸ he
    constructor
    · intro err herr
      have : r = sheetEntry origWb webWb name := by rw [← h1, ← h2]
      rw [this, sheetEntry, herr]
      rfl
    · intro t ht
      have : r = sheetEntry origWb webWb name := by rw [← h1, ← h2]
      rw [this, sheetEntry, ht]

/-- Witness for the hypotheses of `claim_C6`: with a workbook missing the
configured `ScheduleFA` sheet, that sheet's entry is the caught-error
record while the `Gain Summary` entry is still produced. -/
theorem claim_C6_witness :
    (("ScheduleFA",
        errorResult "Worksheet named ScheduleFA not found") ∈
      (compare_excel_with_gain_summary_inline_India c6Wb c6Wb c6Config).sheets) ∧
    errorResult "Worksheet named ScheduleFA not found"
      = { common_rows := [], different_rows := [], only_in_original_rows := []
          only_in_website_rows := [], rows_compared := 0, cells_different := 0
          error := some "Worksheet named ScheduleFA not found" } ∧
    (compare_excel_with_gain_summary_inline_India c6Wb c6Wb c6Config).sheets.map Prod.fst
      = ["Gain Summary", "ScheduleFA"] :=
  ⟨by decide,
    ((claim_C6 c6Wb c6Wb c6Config).2 "ScheduleFA"
        (errorResult "Worksheet named ScheduleFA not found") (by decide)).1
      "Worksheet named ScheduleFA not found" rfl,
    by decide⟩

theorem lookupIdx_cons (e : RKey × List Nat) (rest : List (RKey × List Nat)) (k : RKey) :
    lookupIdx (e :: rest) k = if e.1 = k then e.2 else lookupIdx rest k := by
  by_cases h : e.1 = k <;> simp [lookupIdx, List.find?, h]

theorem lookupIdx_addIndex (a : RKey) (i : Nat) (k : RKey) :
    ∀ idx : List (RKey × List Nat),
      lookupIdx (addIndex a i idx) k
        = if a = k then lookupIdx idx k ++ [i] else lookupIdx idx k := by
  intro idx
  induction idx with
  | nil =>
    by_cases h : a = k <;> simp [addIndex, lookupIdx_cons, h, lookupIdx]
  | cons e rest ih =>
    obtain ⟨ke, ise⟩ := e
    by_cases h1 : ke = a
    · subst h1
      by_cases h2 : ke = k
      · subst h2; simp [addIndex, lookupIdx_cons]
      · simp [addIndex, lookupIdx_cons, h2]
    · by_cases h2 : ke = k
      · subst h2
        have h3 : ¬ a = ke := fun h => h1 h.symm
        simp [addIndex, h1, lookupIdx_cons, h3]
      · simp [addIndex, h1, lookupIdx_cons, h2, ih]

theorem lookupIdx_buildAux (rows : List Row) :
    ∀ (i : Nat) (acc : List (RKey × List Nat)) (k : RKey),
      lookupIdx (buildKeyIndexAux 2 rows i acc) k = lookupIdx acc k ++ keyIdxFrom k rows i := by
  induction rows with
  | nil => intro i acc k; simp [buildKeyIndexAux, keyIdxFrom]
  | cons r rest ih =>
    intro i acc k
    simp only [buildKeyIndexAux, keyIdxFrom]
    rw [ih, lookupIdx_addIndex]
    by_cases h : row_key r 2 = k <;> simp [h]

theorem keyIdxFrom_head (k : RKey) (rows : List Row) :
    ∀ i, (keyIdxFrom k rows i).head? = rows.findIdx? (fun w => decide (row_key w 2 = k)) i := by
  induction rows with
  | nil => intro i; simp [keyIdxFrom]
  | cons r rest ih =>
    intro i
    by_cases h : row_key r 2 = k <;> simp [keyIdxFrom, h, ih]

theorem firstCandidate_findIdx (dfW : List Row) (r : Row) :
    firstCandidate (build_key_index dfW 2) r
      = dfW.findIdx? (fun w => decide (row_key w 2 = row_key r 2)) := by
  unfold firstCandidate build_key_index
  rw [lookupIdx_buildAux dfW 0 [] (row_key r 2)]
  have hnil : lookupIdx [] (row_key r 2) = [] := rfl
  rw [hnil, List.nil_append]
  exact keyIdxFrom_head (row_key r 2) dfW 0

theorem gainPass1_onlyWeb (dfW : List Row) (webIdx : List (RKey × List Nat)) :
    ∀ (rows : List Row) (st : TableResult),
      (gainPass1 dfW webIdx rows st).only_in_website_rows = st.only_in_website_rows := by
  intro rows
  induction rows with
  | nil => intro st; rfl
  | cons r rest ih =>
    intro st
    unfold gainPass1
    cases firstCandidate webIdx r with
    | none => rw [ih]
    | some mi =>
      dsimp only
      split <;> simp [ih]

theorem gainPass2_onlyWeb (origKeys : List RKey) :
    ∀ (rows : List Row) (st : TableResult),
      (gainPass2 origKeys rows st).only_in_website_rows
        = st.only_in_website_rows
          ++ (rows.filter (fun w => decide (row_key w 2 ∉ origKeys))).map onlyWebTriple := by
  intro rows
  induction rows with
  | nil => intro st; simp [gainPass2]
  | cons w rest ih =>
    intro st
    by_cases h : row_key w 2 ∈ origKeys <;> simp [gainPass2, h, ih]

/-- **C4** (counterexample).  Both rows of the C4 scenario carry the same
generic key, and the implemented matcher pairs *both* original rows with
website row 0 — the candidate claimed by the first row is reused — whereas
the first-unclaimed policy the claim describes would pair them with rows 0
and 1.  Observably, comparing the dataset against an identical copy of
itself reports 1 differing cell and a `Different` data row instead of the
all-`Common` outcome the claimed policy would produce. -/
theorem claim_C4_counterexample :
    c4Rows.map (firstCandidate (build_key_index c4Rows 2)) = [some 0, some 0] ∧
    claimedMatches c4Rows c4Rows = [some 0, some 1] ∧
    c4Rows.map (firstCandidate (build_key_index c4Rows 2)) ≠ claimedMatches c4Rows c4Rows ∧
    (compareSheet "Gain Summary" ⟨c4cols, c4Rows⟩ ⟨c4cols, c4Rows⟩).cells_different = 1 ∧
    (compareSheet "Gain Summary" ⟨c4cols, c4Rows⟩ ⟨c4cols, c4Rows⟩).different_rows.length = 2 := by
  exact ⟨by decide, by decide, by decide, by decide, by decide⟩

/-- **C4** (amended).  In the indexed multi-match strategy, every original
row is paired with the *first* website row bearing its key — irrespective
of whether an earlier original row already claimed that candidate, so
duplicate-keyed original rows reuse the same website row — and every
website row whose key never appears among the original rows is emitted in
the Only in Website bucket. -/
theorem claim_C4 :
    (∀ (dfW : List Row) (r : Row),
      firstCandidate (build_key_index dfW 2) r
        = dfW.findIdx? (fun w => decide (row_key w 2 = row_key r 2))) ∧
    (∀ (cols : List String) (dfO dfW : List Row) (w : Row),
      w ∈ dfW → row_key w 2 ∉ dfO.map (fun r => row_key r 2) →
      onlyWebTriple w ∈ (gainCompare cols dfO dfW).only_in_website_rows) := by
  refine ⟨firstCandidate_findIdx, ?_⟩
  intro cols dfO dfW w hw hkey
  unfold gainCompare
  rw [gainPass2_onlyWeb]
  refine List.mem_append.mpr (Or.inr ?_)
  exact List.mem_map_of_mem _ (List.mem_filter.mpr ⟨hw, by simpa using hkey⟩)

/-- Witness for the hypotheses of `claim_C4`: a website row whose key does
not occur in the (empty) original dataset lands in Only in Website. -/
theorem claim_C4_witness :
    (([RawVal.intV 7] : Row) ∈ ([[RawVal.intV 7]] : List Row) ∧
      row_key [RawVal.intV 7] 2 ∉ ([] : List Row).map (fun r => row_key r 2)) ∧
    onlyWebTriple [RawVal.intV 7]
      ∈ (gainCompare ["A"] [] [[RawVal.intV 7]]).only_in_website_rows :=
  ⟨⟨by decide, by decide⟩, claim_C4.2 ["A"] [] [[.intV 7]] [.intV 7] (by decide) (by decide)⟩

theorem zip_map_self (l : List String) (f : String → Option RawVal) :
    l.zip (l.map f) = l.map (fun c => (c, f c)) := by
  induction l with
  | nil => rfl
  | cons c cs ih => simp [ih]

/-- The map-match key of a row is a function of the row's raw key-column
tuple alone — the fact that lets `drop_duplicates` interact soundly with
the key maps. -/
theorem rowAcctKey_eq_tuple (cols keyCols : List String) (row : Row) :
    rowAcctKey cols keyCols row = tupleAcctKey keyCols (keyTuple cols keyCols row) := by
  unfold rowAcctKey tupleAcctKey keyTuple composite_acct_key
  by_cases h : keyCols = ["Account Number"]
  · subst h; simp
  · simp only [h, if_false]
    rw [zip_map_self]

/-- `drop_duplicates` on the raw key columns does not change the key → row
map: a dropped row has the same raw tuple — hence the same key — as an
earlier kept row, which already occupies the map slot. -/
theorem buildMap_dedupRaw (keyT : List (Option RawVal) → Option String)
    (tupleOf : Row → List (Option RawVal)) :
    ∀ (rows : List Row) (seen : List (List (Option RawVal))) (m : List (String × Row)),
      (∀ t ∈ seen, ∀ k, keyT t = some k → k ∈ m.map Prod.fst) →
      buildAcctMap (fun r => keyT (tupleOf r)) (dedupRawAux tupleOf rows seen) m
        = buildAcctMap (fun r => keyT (tupleOf r)) rows m := by
  intro rows
  induction rows with
  | nil => intro seen m _; rfl
  | cons r rest ih =>
    intro seen m hinv
    by_cases hseen : tupleOf r ∈ seen
    · cases hk : keyT (tupleOf r) with
      | none => simp [dedupRawAux, hseen, buildAcctMap, hk, ih seen m hinv]
      | some k =>
        have hkm : k ∈ m.map Prod.fst := hinv _ hseen k hk
        simp [dedupRawAux, hseen, buildAcctMap, hk, hkm, ih seen m hinv]
    · cases hk : keyT (tupleOf r) with
      | none =>
        have hinv' : ∀ t ∈ (tupleOf r :: seen), ∀ k, keyT t = some k → k ∈ m.map Prod.fst := by
          intro t ht k hkt
          rcases List.mem_cons.mp ht with h | h
          · rw [h, hk] at hkt; cases hkt
          · exact hinv t h k hkt
        simp [dedupRawAux, hseen, buildAcctMap, hk, ih _ m hinv']
      | some k =>
        by_cases hkm : k ∈ m.map Prod.fst
        · have hinv' : ∀ t ∈ (tupleOf r :: seen), ∀ k', keyT t = some k' →
              k' ∈ m.map Prod.fst := by
            intro t ht k' hkt
            rcases List.mem_cons.mp ht with h | h
            · rw [h, hk] at hkt
              injection hkt with hkk
              rw [← hkk]; exact hkm
            · exact hinv t h k' hkt
          simp [dedupRawAux, hseen, buildAcctMap, hk, hkm, ih _ m hinv']
        · have hinv' : ∀ t ∈ (tupleOf r :: seen), ∀ k', keyT t = some k' →
              k' ∈ (m ++ [(k, r)]).map Prod.fst := by
            intro t ht k' hkt
            rcases List.mem_cons.mp ht with h | h
            · rw [h, hk] at hkt
              injection hkt with hkk
              rw [← hkk]; simp
            · have := hinv t h k' hkt
              simp only [List.map_append, List.mem_append]
              exact Or.inl this
          simp [dedupRawAux, hseen, buildAcctMap, hk, hkm, ih _ _ hinv']

/-- Pre-deleting later rows whose key already occurred does not change the
key → row map, because the map only ever retains the first row per key. -/
theorem buildMap_dedupKey (keyOf : Row → Option String) :
    ∀ (rows : List Row) (seen : List String) (m : List (String × Row)),
      (∀ k ∈ seen, k ∈ m.map Prod.fst) →
      buildAcctMap keyOf (dedupFirstByKeyAux keyOf rows seen) m
        = buildAcctMap keyOf rows m := by
  intro rows
  induction rows with
  | nil => intro seen m _; rfl
  | cons r rest ih =>
    intro seen m hinv
    cases hk : keyOf r with
    | none => simp [dedupFirstByKeyAux, buildAcctMap, hk, ih seen m hinv]
    | some k =>
      by_cases hseen : k ∈ seen
      · have hkm : k ∈ m.map Prod.fst := hinv k hseen
        simp [dedupFirstByKeyAux, hseen, buildAcctMap, hk, hkm, ih seen m hinv]
      · by_cases hkm : k ∈ m.map Prod.fst
        · have hinv' : ∀ k' ∈ (k :: seen), k' ∈ m.map Prod.fst := by
            intro k' hk'
            rcases List.mem_cons.mp hk' with h | h
            · rw [h]; exact hkm
            · exact hinv k' h
          simp [dedupFirstByKeyAux, hseen, buildAcctMap, hk, hkm, ih _ m hinv']
        · have hinv' : ∀ k' ∈ (k :: seen), k' ∈ (m ++ [(k, r)]).map Prod.fst := by
            intro k' hk'
            rcases List.mem_cons.mp hk' with h | h
            · rw [h]; simp
            · have := hinv k' h
              simp only [List.map_append, List.mem_append]
              exact Or.inl this
          simp [dedupFirstByKeyAux, hseen, buildAcctMap, hk, hkm, ih _ _ hinv']

/-- Rows without a key never enter the key → row map, so filtering them out
beforehand changes nothing. -/
theorem buildMap_filterSome (keyOf : Row → Option String) :
    ∀ (rows : List Row) (m : List (String × Row)),
      buildAcctMap keyOf (rows.filter (fun r => (keyOf r).isSome)) m
        = buildAcctMap keyOf rows m := by
  intro rows
  induction rows with
  | nil => intro m; rfl
  | cons r rest ih =>
    intro m
    cases hk : keyOf r with
    | none => simp [buildAcctMap, hk, ih m]
    | some k =>
      by_cases hkm : k ∈ m.map Prod.fst <;>
        simp [buildAcctMap, hk, hkm, List.filter_cons, ih]

/-- The raw-tuple deduplication layer is transparent to the key → row map
construction. -/
theorem buildMap_ignores_dedupRaw (cols keyCols : List String) (rows : List Row) :
    buildAcctMap (rowAcctKey cols keyCols)
        (dedupRawAux (keyTuple cols keyCols) rows []) []
      = buildAcctMap (rowAcctKey cols keyCols) rows [] := by
  have hfun : rowAcctKey cols keyCols
      = fun r => tupleAcctKey keyCols (keyTuple cols keyCols r) :=
    funext (rowAcctKey_eq_tuple cols keyCols)
  rw [hfun]
  exact buildMap_dedupRaw (tupleAcctKey keyCols) (keyTuple cols keyCols) rows [] []
    (by intro t ht; cases ht)

/-- **C5** (confirmed).  The deduplicated map-match comparison is invariant
under pre-deleting, on either side, every later row whose key already
occurred (`dedupFirstByKey` keeps exactly the first occurrence per key):
only the first occurrence per key is ever compared, and a later duplicate
contributes to none of the four output buckets or counts. -/
theorem claim_C5 :
    ∀ (cols keyCols : List String) (dfO dfW : List Row),
      mapCompare cols keyCols dfO dfW
        = mapCompare cols keyCols (dedupFirstByKey (rowAcctKey cols keyCols) dfO) dfW ∧
      mapCompare cols keyCols dfO dfW
        = mapCompare cols keyCols dfO (dedupFirstByKey (rowAcctKey cols keyCols) dfW) := by
  intro cols keyCols dfO dfW
  have key : ∀ rows : List Row,
      buildAcctMap (rowAcctKey cols keyCols)
          (dedupRawAux (keyTuple cols keyCols)
            (dedupFirstByKey (rowAcctKey cols keyCols) rows) []) []
        = buildAcctMap (rowAcctKey cols keyCols)
            (dedupRawAux (keyTuple cols keyCols) rows []) [] := by
    intro rows
    rw [buildMap_ignores_dedupRaw, buildMap_ignores_dedupRaw, dedupFirstByKey,
      buildMap_dedupKey (rowAcctKey cols keyCols) rows [] [] (by intro k hk; cases hk)]
  constructor
  · unfold mapCompare
    rw [key dfO]
  · unfold mapCompare
    rw [key dfW]

/-- A `composite_from` entry list containing a missing, null or blank entry
collapses to `None`. -/
theorem composite_from_none :
    ∀ entries : List (String × Option RawVal),
      (∃ e ∈ entries, e.2 = none ∨ e.2 = some .null ∨
        (∃ v, e.2 = some v ∧ pyStrip (pyStr v) = "")) →
      composite_from entries = none := by
  intro entries
  induction entries with
  | nil => rintro ⟨e, he, _⟩; cases he
  | cons e rest ih =>
    rintro ⟨e', he', hbad⟩
    obtain ⟨col, ov⟩ := e
    cases ov with
    | none => rfl
    | some v =>
      by_cases hnull : v = .null
      · simp [composite_from, hnull]
      · by_cases hblank : pyStrip (pyStr v) = ""
        · simp [composite_from, hnull, hblank]
        · rcases List.mem_cons.mp he' with hhead | hmem
          · exfalso
            rw [hhead] at hbad
            rcases hbad with h | h | ⟨w, hw, hwblank⟩
            · cases h
            · injection h with h; exact hnull h
            · injection hw with hw; rw [← hw] at hwblank; exact hblank hwblank
          · simp [composite_from, hnull, hblank, ih ⟨e', hmem, hbad⟩]

/-- **C3** (counterexample).  The C3 scenario's single original row has a
blank `Account Number`, its composite key is `None`, and — with an empty
website dataset — the comparison output contains nothing but the bucket
headers: the row does *not* surface as Only in Original; it disappears
from all four buckets (rows compared is 0). -/
theorem claim_C3_counterexample :
    rowAcctKey preferredKeys preferredKeys
        [.null, .strV "Fund A", .strV "01/02/2024"] = none ∧
    compareSheet "transaction_details" c3Orig c3Web
      = { common_rows := [tripledHeaders preferredKeys]
          different_rows := [tripledHeaders preferredKeys]
          only_in_original_rows := [tripledHeaders preferredKeys]
          only_in_website_rows := [tripledHeaders preferredKeys]
          rows_compared := 0
          cells_different := 0
          error := none } := by
  exact ⟨by decide, by decide⟩

/-- **C3** (amended).  `composite_acct_key` returns `None` for a row
whenever any required key column is missing, null or blank in that row; and
rows whose key is `None` are excluded from the keyed-match phase *and from
the entire output* — filtering them out of either dataset leaves the
comparison result unchanged, so such rows appear in no bucket (there is no
fallback accounting pass). -/
theorem claim_C3 :
    (∀ (cols keyCols : List String) (row : Row) (c : String),
      c ∈ keyCols →
      (lookupCol cols row c = none ∨ lookupCol cols row c = some .null ∨
        (∃ v, lookupCol cols row c = some v ∧ pyStrip (pyStr v) = "")) →
      composite_acct_key cols keyCols row = none) ∧
    (∀ (cols keyCols : List String) (dfO dfW : List Row),
      mapCompare cols keyCols dfO dfW
        = mapCompare cols keyCols
            (dfO.filter (fun r => (rowAcctKey cols keyCols r).isSome)) dfW ∧
      mapCompare cols keyCols dfO dfW
        = mapCompare cols keyCols dfO
            (dfW.filter (fun r => (rowAcctKey cols keyCols r).isSome))) := by
  constructor
  · intro cols keyCols row c hc hbad
    unfold composite_acct_key
    rw [composite_from_none]
    · rfl
    · exact ⟨(c, lookupCol cols row c), List.mem_map_of_mem _ hc, hbad⟩
  · intro cols keyCols dfO dfW
    have key : ∀ rows : List Row,
        buildAcctMap (rowAcctKey cols keyCols)
            (dedupRawAux (keyTuple cols keyCols)
              (rows.filter (fun r => (rowAcctKey cols keyCols r).isSome)) []) []
          = buildAcctMap (rowAcctKey cols keyCols)
              (dedupRawAux (keyTuple cols keyCols) rows []) [] := by
      intro rows
      rw [buildMap_ignores_dedupRaw, buildMap_ignores_dedupRaw,
        buildMap_filterSome]
    constructor
    · unfold mapCompare
      rw [key dfO]
    · unfold mapCompare
      rw [key dfW]

/-- Witness for the hypotheses of `claim_C3`: in the C3 scenario row the
required `Account Number` key column is null, so the composite key is
`None`. -/
theorem claim_C3_witness :
    ("Account Number" ∈ preferredKeys ∧
      lookupCol preferredKeys [RawVal.null, RawVal.strV "Fund A", RawVal.strV "01/02/2024"]
        "Account Number" = some .null) ∧
    composite_acct_key preferredKeys preferredKeys
      [RawVal.null, RawVal.strV "Fund A", RawVal.strV "01/02/2024"] = none :=
  ⟨⟨by decide, by decide⟩,
    claim_C3.1 preferredKeys preferredKeys
      [RawVal.null, RawVal.strV "Fund A", RawVal.strV "01/02/2024"] "Account Number"
      (by decide) (Or.inr (Or.inl (by decide)))⟩

/-- **C9** (code bug).  The USA-side entry point
`utils.compare_excel_with_gain_summary_inline` returns an empty `sheets`
mapping for every input — its comparison loop is missing — so, contrary to
the claim (and to what its own signature, setup code and callers expect, and
to what the India twin does), the returned structure contains no per-table
buckets or counts for any configured table. -/
theorem claim_C9_code_bug :
    (compare_excel_with_gain_summary_inline c9Wb c9Wb usaSheetsConfig).sheets = [] ∧
    usaSheetsConfig.map Prod.fst = ["Gain Summary", "8938", "FBAR"] ∧
    (compare_excel_with_gain_summary_inline_India c9Wb c9Wb usaSheetsConfig).sheets.map
        Prod.fst = ["Gain Summary", "8938", "FBAR"] := by
  refine ⟨rfl, by decide, by decide⟩

end ExcelTool
